import Mathlib

/-!
Verification of the diff-and-validate engine of `flywheel_bids_tools/upload_bids.py`.

The Python module is shallowly embedded below.  Python scalar cell values are
modelled by `Value` (strings, integers, booleans, the float NaN sentinel, and
`None`).  A pandas dataframe is modelled by `DF` (a column-name list plus a
row-major grid of cells).  The process-wide mutable list `ERROR_MESSAGES` is
modelled by explicit state passing: every function that reads or appends to it
takes the current queue and returns the new one.  Python exceptions
(`TypeError` from `math.isnan`, the shape-mismatch `Exception`, `IndexError`,
`KeyError`, the flywheel client error) are modelled with `Except String`.
File I/O (CSV reading, provenance-log writing) is out of scope of the engine
and does not affect any modelled return value; it is omitted.
-/

/-- Python scalar values as they occur in the dataframes handled by the
script: strings, integers, booleans, the float NaN (which pandas uses for
missing cells), and None. -/
inductive Value where
  | str (s : String)
  | num (n : Int)
  | bool (b : Bool)
  | nan
  | none
deriving DecidableEq, Repr

/-- Python `str.lower()`.  The column names and option lists of the script
are ASCII, where `Char.toLower` agrees with Python lowercasing. -/
def strLower (s : String) : String := ⟨s.data.map Char.toLower⟩

/-- Split a character list at every occurrence of the separator, like
Python `str.split` with a one-character separator (the empty input gives
one empty group, as in Python). -/
def splitCh (sep : Char) (l : List Char) : List (List Char) :=
  l.foldr
    (fun ch acc =>
      match acc with
      | [] => [[ch]]
      | g :: gs => if ch == sep then [] :: g :: gs else (ch :: g) :: gs)
    [[]]

/-- Python `column.split("_")`. -/
def splitUnderscore (s : String) : List String :=
  (splitCh '_' s.data).map (fun cs => ⟨cs⟩)

/-- Python `str()` on a `Value` (`str("x") = "x"`, `str(3) = "3"`,
`str(True) = "True"`, `str(float("nan")) = "nan"`, `str(None) = "None"`). -/
def pyStr : Value → String
  | .str s => s
  | .num n => toString n
  | .bool true => "True"
  | .bool false => "False"
  | .nan => "nan"
  | .none => "None"

/-- Python `==` on scalar values: NaN is unequal to everything (itself
included), booleans compare equal to the integers 0 and 1, and values of
otherwise different types are unequal. -/
def pyEq : Value → Value → Bool
  | .nan, _ => false
  | _, .nan => false
  | .str a, .str b => a == b
  | .num a, .num b => a == b
  | .bool a, .bool b => a == b
  | .bool a, .num n => (if a then (1 : Int) else 0) == n
  | .num n, .bool b => n == (if b then (1 : Int) else 0)
  | .none, .none => true
  | _, _ => false

/-- `type(v) is str` in Python. -/
def isPyStr : Value → Bool
  | .str _ => true
  | _ => false

/-- Python `math.isnan`: defined on numbers (and booleans, which are
numbers in Python), `True` exactly on NaN, and a `TypeError` on anything
that is not a real number (strings, `None`, ...). -/
def mathIsnan : Value → Except String Bool
  | .num _ => .ok false
  | .bool _ => .ok false
  | .nan => .ok true
  | .str _ => .error "TypeError: must be real number, not str"
  | .none => .error "TypeError: must be real number, not NoneType"

/-- `pandas.DataFrame.fillna(0)`: missing cells (NaN, and `None` which
pandas also treats as missing) are replaced by the integer 0. -/
def fillna0 : Value → Value
  | .nan => .num 0
  | .none => .num 0
  | v => v

/-- A pandas dataframe: named columns and a row-major grid of cells.  The
default integer index is positional, so `.loc` row labels coincide with
row positions. -/
structure DF where
  columns : List String
  rows : List (List Value)
deriving DecidableEq, Repr

/-- Number of rows (`df.shape[0]`). -/
def DF.nrows (df : DF) : Nat := df.rows.length

/-- Number of columns (`df.shape[1]`). -/
def DF.ncols (df : DF) : Nat := df.columns.length

/-- `df.shape`. -/
def DF.shape (df : DF) : Nat × Nat := (df.nrows, df.ncols)

/-- `df.iloc[i, j]`.  All accesses performed by the script are within the
bounds established by the diff of two same-shaped tables, where the
default value is never reached. -/
def DF.cell (df : DF) (i j : Nat) : Value := (df.rows.getD i []).getD j .nan

/-- `df.loc[i, c]`: positional row `i` of the column named `c`; a missing
column is a `KeyError`. -/
def DF.loc (df : DF) (i : Nat) (c : String) : Except String Value :=
  match df.columns.findIdx? (fun col => col = c) with
  | some j => .ok (df.cell i j)
  | Option.none => .error "KeyError"

/-! ### The filename grammars (the three compiled regexes)

The three patterns `anat1`, `anat2`, `func1` are anchored (`^ ... $`), so
`re.match` succeeding is exactly membership of the whole string in the
regular language of the pattern.  The named capture groups only name
sub-matches and do not change the accepted language, so the embedding keeps
the language and drops the names.  Matching is decided with Brzozowski
derivatives. -/

/-- Regular expressions over characters, with arbitrary character
predicates standing for character classes. -/
inductive RE where
  | fail
  | eps
  | pred (p : Char → Bool)
  | seq (a b : RE)
  | alt (a b : RE)
  | star (a : RE)

/-- Does the regex accept the empty string? -/
def RE.nullable : RE → Bool
  | .fail => false
  | .eps => true
  | .pred _ => false
  | .seq a b => a.nullable && b.nullable
  | .alt a b => a.nullable || b.nullable
  | .star _ => true

/-- Smart sequencing (keeps derivatives small; same language as `RE.seq`). -/
def mkSeq : RE → RE → RE
  | .fail, _ => .fail
  | _, .fail => .fail
  | .eps, b => b
  | a, .eps => a
  | a, b => .seq a b

/-- Smart alternation (keeps derivatives small; same language as `RE.alt`). -/
def mkAlt : RE → RE → RE
  | .fail, b => b
  | a, .fail => a
  | a, b => .alt a b

/-- Brzozowski derivative of a regex by one character. -/
def RE.deriv : RE → Char → RE
  | .fail, _ => .fail
  | .eps, _ => .fail
  | .pred p, c => if p c then .eps else .fail
  | .seq a b, c =>
      if a.nullable then mkAlt (mkSeq (a.deriv c) b) (b.deriv c)
      else mkSeq (a.deriv c) b
  | .alt a b, c => mkAlt (a.deriv c) (b.deriv c)
  | .star a, c => mkSeq (a.deriv c) (.star a)

/-- Whole-string regex match by repeated derivatives. -/
def matchRE (r : RE) (s : String) : Bool :=
  (s.toList.foldl RE.deriv r).nullable

/-- The character class `[a-zA-Z0-9]`. -/
def isAlnumCh (c : Char) : Bool :=
  ('a' ≤ c && c ≤ 'z') || ('A' ≤ c && c ≤ 'Z') || ('0' ≤ c && c ≤ '9')

/-- A single literal character. -/
def reChar (c : Char) : RE := RE.pred (fun x => x == c)

/-- A literal string. -/
def reStr (s : String) : RE := s.toList.foldr (fun c r => RE.seq (reChar c) r) RE.eps

/-- `[a-zA-Z0-9]+`. -/
def alnum1 : RE := RE.seq (RE.pred isAlnumCh) (RE.star (RE.pred isAlnumCh))

/-- `(r)?`. -/
def reOpt (r : RE) : RE := RE.alt r RE.eps

/-- An optional tagged segment such as `(_ses-[a-zA-Z0-9]+)?`. -/
def seg (tag : String) : RE := reOpt (RE.seq (reStr tag) alnum1)

/-- Concatenation of a list of regexes. -/
def reCat (rs : List RE) : RE := rs.foldr RE.seq RE.eps

/-- The first anatomical filename pattern `anat1` of the source:
`sub-X(_ses-X)?(_acq-X)?(_ce-X)?(_rec-X)?(_run-X)?(_X)?\.nii(\.gz)?`
with `X = [a-zA-Z0-9]+`. -/
def anat1 : RE :=
  reCat [reStr "sub-", alnum1, seg "_ses-", seg "_acq-", seg "_ce-",
    seg "_rec-", seg "_run-", reOpt (RE.seq (reChar '_') alnum1),
    reStr ".nii", reOpt (reStr ".gz")]

/-- The second anatomical filename pattern `anat2` of the source:
as `anat1` but with an optional `_mod-X` segment and a mandatory
`_X.nii(.gz)?` suffix. -/
def anat2 : RE :=
  reCat [reStr "sub-", alnum1, seg "_ses-", seg "_acq-", seg "_ce-",
    seg "_rec-", seg "_run-", seg "_mod-", reChar '_', alnum1,
    reStr ".nii", reOpt (reStr ".gz")]

/-- The functional filename pattern `func1` of the source:
`sub-X(_ses-X)?(_task-X)?(_acq-X)?(_ce-X)?(_dir-X)?(_rec-X)?(_run-X)?(_echo-X)?(_X)?\.nii(\.gz)?`. -/
def func1 : RE :=
  reCat [reStr "sub-", alnum1, seg "_ses-", seg "_task-", seg "_acq-",
    seg "_ce-", seg "_dir-", seg "_rec-", seg "_run-", seg "_echo-",
    reOpt (RE.seq (reChar '_') alnum1), reStr ".nii", reOpt (reStr ".gz")]

/-! ### The field rule classifier `change_checker` -/

/-- The `drop_down_bool` dict of the source. -/
def drop_down_bool : List (String × List String) :=
  [("ignore", ["true", "false"]), ("valid", ["true", "false"])]

/-- The `drop_down_single_fields` dict of the source. -/
def drop_down_single_fields : List (String × List String) :=
  [("modality",
    ["", "mr", "ct", "pet", "us", "eeg", "ieeg", "x-ray", "ecg", "meg", "nirs"])]

/-- The `string_fields` list of the source. -/
def string_fields : List String :=
  ["acquisition.label", "project.label", "error_message", "subject.label",
   "folder", "template", "intendedfor", "mod", "path", "rec", "task", "run"]

/-- Diagnostic appended by the boolean drop-down rule. -/
def boolFieldMsg : String :=
  "This field accepts booleans, these can only be written as \"True\" or \"False\"!"

/-- Diagnostic appended by the enumerated drop-down rule. -/
def dropDownMsg : String :=
  "This field must match one of the available options in the drop-down menu on the website!"

/-- Diagnostic appended by the free-string rule. -/
def stringFieldMsg : String := "This field only accepts strings!"

/-- Diagnostic appended by the filename rule. -/
def bidsNameMsg : String := "This field MUST be a BIDS compliant name!"

/-- Diagnostic appended for the immutable identifier column. -/
def cannotEditIdMsg : String := "You cannot edit the acquisition ID!"

/-- The `for field, options in drop_down_single_fields.items()` loop of the
source: return `True` on the first options list containing the value,
otherwise fall through. -/
def optionsLoop (s : String) : List (String × List String) → Bool
  | [] => false
  | (_, options) :: rest => if options.contains s then true else optionsLoop s rest

/-- `change_checker(user_input, column)` of the source.  The process-wide
`ERROR_MESSAGES` list is threaded explicitly: the function receives the
current queue `msgs` and returns the boolean result together with the new
queue.  The `TypeError` that `math.isnan` raises on a value that is neither
a string nor a number is modelled by the `Except` error case. -/
def change_checker (user_input : Value) (column : String) (msgs : List String) :
    Except String (Bool × List String) :=
  if (drop_down_bool.map Prod.fst).contains (strLower column) then
    if strLower (pyStr user_input) == "true" || strLower (pyStr user_input) == "false" then
      .ok (true, msgs)
    else
      .ok (false, msgs ++ [boolFieldMsg])
  else if (drop_down_single_fields.map Prod.fst).contains (strLower column) then
    if optionsLoop (strLower (pyStr user_input)) drop_down_single_fields then
      .ok (true, msgs)
    else
      .ok (false, msgs ++ [dropDownMsg])
  else if string_fields.contains (strLower column) then
    if isPyStr user_input then
      .ok (true, msgs)
    else
      match mathIsnan user_input with
      | .error e => .error e
      | .ok true => .ok (true, msgs)
      | .ok false => .ok (false, msgs ++ [stringFieldMsg])
  else if strLower column == "filename" then
    if matchRE anat1 (pyStr user_input) then .ok (true, msgs)
    else if matchRE anat2 (pyStr user_input) then .ok (true, msgs)
    else if matchRE func1 (pyStr user_input) then .ok (true, msgs)
    else .ok (false, msgs ++ [bidsNameMsg])
  else if column == "acquisition.id" then
    .ok (false, msgs ++ [cannotEditIdMsg])
  else
    .ok (true, msgs)

/-! ### The cell diff engine `get_unequal_cells` -/

/-- Shape-mismatch exception message of the source. -/
def shapeErrMsg : String :=
  "These dataframes don\x27t have the same number of rows and columns"

/-- All (row, column) coordinates of an `m` by `n` grid in row-major
order, as produced by `np.where` on the comparison array. -/
def allCoords (m n : Nat) : List (Nat × Nat) :=
  (List.range m).flatMap (fun i => (List.range n).map (fun j => (i, j)))

/-- One entry of the comparison array
`df1.fillna(0).values == df2.fillna(0).values`. -/
def cellsEqual (df1 df2 : DF) (p : Nat × Nat) : Bool :=
  pyEq (fillna0 (df1.cell p.1 p.2)) (fillna0 (df2.cell p.1 p.2))

/-- `get_unequal_cells(df1, df2)` of the source: raise on a shape
mismatch, otherwise return the row-major coordinates of all cells that
compare unequal after filling missing values with 0.  The provenance
side branch only writes a log file and does not affect the returned
indices; it is not modelled. -/
def get_unequal_cells (df1 df2 : DF) : Except String (List (Nat × Nat)) :=
  if df1.shape ≠ df2.shape then
    .error shapeErrMsg
  else
    .ok ((allCoords df1.nrows df1.ncols).filter
      (fun p => !(cellsEqual df1 df2 p)))

/-! ### The change validator `validate_on_unequal_cells` -/

/-- One printed diagnostic block of `validate_on_unequal_cells`: the
1-indexed row and column, the offending value, and the diagnostic popped
from the front of the queue. -/
structure Report where
  row : Nat
  col : Nat
  value : Value
  message : String
deriving DecidableEq, Repr

/-- `changed_df.columns[pair[1]]`: the name of column `j`.  All accesses
performed by the script are within bounds. -/
def colName (df : DF) (j : Nat) : String := df.columns.getD j ""

/-- The first loop of `validate_on_unequal_cells`: run `change_checker`
on every diffed cell, collecting the boolean results in order and
threading the diagnostic queue. -/
def runChecks : List (Nat × Nat) → DF → List String →
    Except String (List Bool × List String)
  | [], _, msgs => .ok ([], msgs)
  | p :: rest, df, msgs =>
    match change_checker (df.cell p.1 p.2) (colName df p.2) msgs with
    | .error e => .error e
    | .ok (b, msgs1) =>
      match runChecks rest df msgs1 with
      | .error e => .error e
      | .ok (valid, msgs2) => .ok (b :: valid, msgs2)

/-- The reporting loop of `validate_on_unequal_cells`: for every entry of
`valid` that is `False` (paired here with its coordinate), print the
1-indexed location and offending value and pop one diagnostic from the
front of the queue (`ERROR_MESSAGES.pop(0)`; popping an empty queue is an
`IndexError`).  Returns the remaining queue and the printed blocks in
print order. -/
def buildReports : List ((Nat × Nat) × Bool) → DF → List String →
    Except String (List String × List Report)
  | [], _, msgs => .ok (msgs, [])
  | (p, b) :: rest, df, msgs =>
    if b then buildReports rest df msgs
    else
      match msgs with
      | [] => .error "IndexError: pop from empty list"
      | m :: ms =>
        match buildReports rest df ms with
        | .error e => .error e
        | .ok (msgs2, reps) =>
          .ok (msgs2, ⟨p.1 + 1, p.2 + 1, df.cell p.1 p.2, m⟩ :: reps)

/-- `validate_on_unequal_cells(indices_list, changed_df)` of the source,
with the diagnostic queue threaded and the printed diagnostic blocks
returned.  The result triple is (returned boolean, queue after the call,
printed blocks).  The reporting loop indexes `valid` and `indices_list`
in parallel, modelled by zipping them (both always have equal length). -/
def validate_on_unequal_cells (indices_list : List (Nat × Nat)) (changed_df : DF)
    (msgs : List String) : Except String (Bool × List String × List Report) :=
  match runChecks indices_list changed_df msgs with
  | .error e => .error e
  | .ok (valid, msgs1) =>
    if valid.all (fun b => b) then
      .ok (true, msgs1, [])
    else
      match buildReports (indices_list.zip valid) changed_df msgs1 with
      | .error e => .error e
      | .ok (msgs2, reps) => .ok (false, msgs2, reps)

/-! ### The update translator and applier `upload_to_flywheel` -/

/-- `create_nested_fw_dict(tree_list, value)` of the source: fold a path
into a singly-nested mapping ending in the value. -/
inductive Nested where
  | leaf (v : Value)
  | node (k : String) (rest : Nested)
deriving DecidableEq, Repr

/-- The recursive fold of the source. -/
def create_nested_fw_dict : List String → Value → Nested
  | [], v => .leaf v
  | k :: ks, v => .node k (create_nested_fw_dict ks v)

/-- A flywheel file object as the script uses it: its `type` tag and an
identity (`fid`) standing for the Python object identity, so that which
file an update was applied to is observable. -/
structure FWFile where
  fid : Nat
  type : Value
deriving DecidableEq, Repr

/-- A flywheel acquisition object: its ordered list of files. -/
structure Entity where
  files : List FWFile
deriving DecidableEq, Repr

/-- The flywheel client: a map from acquisition id to acquisition. -/
structure Client where
  objects : List (String × Entity)
deriving DecidableEq, Repr

/-- `client.get(id)`: resolve an acquisition; an unknown id is a remote
error. -/
def Client.get (c : Client) (id : String) : Except String Entity :=
  match c.objects.lookup id with
  | some e => .ok e
  | Option.none => .error "ApiException: acquisition not found"

/-- Which remote update capability a call used. -/
inductive UpKind where
  | info
  | classification
deriving DecidableEq, Repr

/-- One remote update call: the resolved acquisition id, the file object
it was applied to, the capability used, and the mapping passed to it
(`update['info']` resp. `update['classification']`). -/
structure UpdateCall where
  entity_id : String
  file : FWFile
  kind : UpKind
  payload : Nested
deriving DecidableEq, Repr

/-- One iteration of the `upload_to_flywheel` loop, for one changed-cell
coordinate: resolve the acquisition id and type of the row, fetch the
acquisition, build the nested update from the column name split on
underscores, pick the first file whose type equals the row type
(`[f for f in fw_object.files if f.type == file_type][0]`; an empty
filter is an `IndexError`), and dispatch the `info` and `classification`
branches present in the update.  Returns the calls issued for this cell. -/
def upload_one (df : DF) (client : Client) (pair : Nat × Nat) :
    Except String (List UpdateCall) :=
  match df.loc pair.1 "acquisition.id" with
  | .error e => .error e
  | .ok acquisition =>
    match df.loc pair.1 "type" with
    | .error e => .error e
    | .ok file_type =>
      match client.get (pyStr acquisition) with
      | .error e => .error e
      | .ok fw_object =>
        let column_list := splitUnderscore (colName df pair.2)
        let value := df.cell pair.1 pair.2
        let update := create_nested_fw_dict column_list value
        match (fw_object.files.filter (fun f => pyEq f.type file_type)).head? with
        | Option.none => .error "IndexError: list index out of range"
        | some f =>
          match update with
          | .leaf _ => .error "AttributeError: keys"
          | .node k rest =>
            .ok ((if k = "info"
                    then [⟨pyStr acquisition, f, UpKind.info, rest⟩] else [])
              ++ (if k = "classification"
                    then [⟨pyStr acquisition, f, UpKind.classification, rest⟩] else []))

/-- `upload_to_flywheel(modified_df, change_index, client)` of the
source: apply `upload_one` to every changed-cell coordinate in order,
collecting all issued calls; any exception aborts the loop. -/
def upload_to_flywheel (modified_df : DF) (change_index : List (Nat × Nat))
    (client : Client) : Except String (List UpdateCall) :=
  match change_index with
  | [] => .ok []
  | p :: rest =>
    match upload_one modified_df client p with
    | .error e => .error e
    | .ok calls =>
      match upload_to_flywheel modified_df rest client with
      | .error e => .error e
      | .ok more => .ok (calls ++ more)

/-! ### The pipeline of `main` (after the two CSVs are read) -/

/-- The diff, validate and apply phases of `main`, starting from the two
tables (CSV reading is an external collaborator).  The result is
(whether the apply phase ran, the printed diagnostic blocks, the issued
remote calls); both exits of the script have exit code 0, so the boolean
is the only outcome distinction.  `main` applies only when the
diagnostic queue is empty and the validation verdict is `True`. -/
def pipeline (df_original df_modified : DF) (client : Client) :
    Except String (Bool × List Report × List UpdateCall) :=
  match get_unequal_cells df_original df_modified with
  | .error e => .error e
  | .ok unequal =>
    match validate_on_unequal_cells unequal df_modified [] with
    | .error e => .error e
    | .ok (res, msgsAfter, reps) =>
      if msgsAfter.length = 0 ∧ res = true then
        match upload_to_flywheel df_modified unequal client with
        | .error e => .error e
        | .ok calls => .ok (true, reps, calls)
      else
        .ok (false, reps, [])

/-! ### Statement-side helpers -/

/-- The checker call made for one coordinate, on a fresh queue: the value
and column name that `validate_on_unequal_cells` passes for that cell. -/
def checkOne (df : DF) (p : Nat × Nat) : Except String (Bool × List String) :=
  change_checker (df.cell p.1 p.2) (colName df p.2) []

/-- The diagnostic blocks that a correctly paired reporting phase prints:
one block per invalid cell, in coordinate order, each carrying the
diagnostic that this very cell's checker call produced. -/
def expectedReports (df : DF) (idxs : List (Nat × Nat)) : List Report :=
  idxs.filterMap (fun p =>
    match checkOne df p with
    | .ok (false, m :: _) => some ⟨p.1 + 1, p.2 + 1, df.cell p.1 p.2, m⟩
    | _ => Option.none)

/-! ### Lemmas about the diff engine -/

/-- The row-major coordinate grid is the product of the two index ranges. -/
theorem allCoords_eq_product (m n : Nat) :
    allCoords m n = List.range m ×ˢ List.range n := rfl

/-- Membership in the coordinate grid is being in bounds. -/
theorem mem_allCoords {m n : Nat} {q : Nat × Nat} :
    q ∈ allCoords m n ↔ q.1 < m ∧ q.2 < n := by
  rw [allCoords_eq_product]
  obtain ⟨i, j⟩ := q
  simp [List.mem_product]

/-- The coordinate grid has no duplicates. -/
theorem nodup_allCoords (m n : Nat) : (allCoords m n).Nodup := by
  rw [allCoords_eq_product]
  exact List.Nodup.product (List.nodup_range _) (List.nodup_range _)

/-- Filtering a duplicate-free list by a predicate that holds exactly at
one of its members yields that single member. -/
theorem filter_unique {α : Type} (L : List α) (p : α → Bool) (x : α)
    (hnd : L.Nodup) (hx : x ∈ L) (hiff : ∀ y ∈ L, (p y = true ↔ y = x)) :
    L.filter p = [x] := by
  induction L with
  | nil => cases hx
  | cons a t ih =>
    rw [List.nodup_cons] at hnd
    rcases List.mem_cons.mp hx with rfl | hxt
    · have hpa : p x = true := (hiff x (by simp)).mpr rfl
      rw [List.filter_cons_of_pos hpa]
      have ht : t.filter p = [] := by
        rw [List.filter_eq_nil_iff]
        intro y hy hpy
        exact hnd.1 ((hiff y (by simp [hy])).mp hpy ▸ hy)
      rw [ht]
    · have hpa : p a = false := by
        rcases hb : p a with _ | _
        · rfl
        · exact absurd ((hiff a (by simp)).mp hb ▸ hxt) hnd.1
      rw [List.filter_cons_of_neg (by simp [hpa])]
      exact ih hnd.2 hxt (fun y hy => hiff y (List.mem_cons_of_mem _ hy))

/-- C3: for every pair of same-shaped tables that differ (under the
fill-missing-with-0 comparison the diff engine applies to every cell) in
exactly one cell, `get_unequal_cells` returns exactly the one-element
coordinate list locating that cell. -/
theorem single_diff_located (df1 df2 : DF) (i j : Nat)
    (hsh : df1.shape = df2.shape) (hi : i < df1.nrows) (hj : j < df1.ncols)
    (hne : cellsEqual df1 df2 (i, j) = false)
    (hothers : ∀ a b : Nat, a < df1.nrows → b < df1.ncols →
      ¬(a = i ∧ b = j) → cellsEqual df1 df2 (a, b) = true) :
    get_unequal_cells df1 df2 = .ok [(i, j)] := by
  unfold get_unequal_cells
  rw [if_neg (by simp [hsh])]
  congr 1
  apply filter_unique _ _ _ (nodup_allCoords _ _) (mem_allCoords.mpr ⟨hi, hj⟩)
  intro y hy
  obtain ⟨a, b⟩ := y
  obtain ⟨ha, hb⟩ := mem_allCoords.mp hy
  constructor
  · intro hp
    by_contra hne2
    have hcell : cellsEqual df1 df2 (a, b) = true :=
      hothers a b ha hb (by simpa [Prod.ext_iff] using hne2)
    simp [hcell] at hp
  · rintro h
    rw [h]
    simp [hne]

/-- Witness for C3 at a concrete pair of 1 by 2 tables differing in the
second cell. -/
theorem single_diff_located_witness :
    get_unequal_cells ⟨["a", "b"], [[.num 1, .num 2]]⟩
      ⟨["a", "b"], [[.num 1, .num 3]]⟩ = .ok [(0, 1)] :=
  single_diff_located _ _ 0 1 rfl (by decide) (by decide) (by decide)
    (by
      intro a b ha hb hnot
      simp only [DF.nrows, DF.ncols, List.length_cons, List.length_nil] at ha hb
      have ha0 : a = 0 := by omega
      subst ha0
      have hb01 : b = 0 ∨ b = 1 := by omega
      rcases hb01 with rfl | rfl
      · decide
      · exact absurd ⟨rfl, rfl⟩ hnot)

/-- C9: `get_unequal_cells` raises the shape-mismatch exception whenever
the two tables have different shapes, before any cell comparison; no
coordinate list (truncated, padded or otherwise) is ever produced. -/
theorem shape_mismatch_fatal (df1 df2 : DF) (h : df1.shape ≠ df2.shape) :
    get_unequal_cells df1 df2 = .error shapeErrMsg := by
  unfold get_unequal_cells
  rw [if_pos h]

/-- Witness for C9 at a 1 by 1 table against a 1 by 2 table. -/
theorem shape_mismatch_fatal_witness :
    DF.shape ⟨["a"], [[.num 1]]⟩ ≠ DF.shape ⟨["a", "b"], [[.num 1, .num 2]]⟩ ∧
    get_unequal_cells ⟨["a"], [[.num 1]]⟩ ⟨["a", "b"], [[.num 1, .num 2]]⟩ =
      .error shapeErrMsg :=
  ⟨by decide, shape_mismatch_fatal _ _ (by decide)⟩

/-- C10: both tables are passed through `fillna(0)` before comparison, so
a cell that is missing (NaN) in one table and holds the number 0 in the
other is never reported as a difference: the whole pipeline is blind to
such an edit. -/
theorem missing_vs_zero_not_reported (df1 df2 : DF) (l : List (Nat × Nat)) (i j : Nat)
    (h : get_unequal_cells df1 df2 = .ok l)
    (h1 : df1.cell i j = .nan) (h2 : df2.cell i j = .num 0) :
    (i, j) ∉ l := by
  unfold get_unequal_cells at h
  by_cases hsh : df1.shape ≠ df2.shape
  · rw [if_pos hsh] at h; cases h
  · rw [if_neg hsh] at h
    injection h with h
    rw [← h]
    intro hmem
    have hp := (List.mem_filter.mp hmem).2
    simp [cellsEqual, h1, h2, fillna0, pyEq] at hp

/-- Witness for C10: a NaN cell against a 0 cell produces an empty diff,
so the edited cell is not among the reported coordinates. -/
theorem missing_vs_zero_not_reported_witness :
    get_unequal_cells ⟨["a"], [[.nan]]⟩ ⟨["a"], [[.num 0]]⟩ = .ok [] ∧
    (0, 0) ∉ ([] : List (Nat × Nat)) :=
  ⟨rfl, missing_vs_zero_not_reported ⟨["a"], [[.nan]]⟩ ⟨["a"], [[.num 0]]⟩ [] 0 0 rfl rfl rfl⟩

/-! ### The field rule classifier: claims about `change_checker` -/

/-- C7: for every value, `change_checker` on the column `acquisition.id`
returns `False` and appends the cannot-edit diagnostic to the queue,
regardless of the value. -/
theorem acquisition_id_immutable (v : Value) (msgs : List String) :
    change_checker v "acquisition.id" msgs = .ok (false, msgs ++ [cannotEditIdMsg]) := rfl

/-- C8: the BIDS-style name `sub-01_ses-02_task-rest_bold.nii.gz` passes
the filename rule (it matches the third grammar), and
`not_a_bids_name.txt` fails it with the BIDS diagnostic enqueued. -/
theorem filename_grammar_vectors :
    change_checker (.str "sub-01_ses-02_task-rest_bold.nii.gz") "filename" [] =
      .ok (true, []) ∧
    change_checker (.str "not_a_bids_name.txt") "filename" [] =
      .ok (false, [bidsNameMsg]) :=
  ⟨rfl, rfl⟩

/-- C2 counterexample: `change_checker` is not total.  `math.isnan` is
applied to any non-string value reaching a free-string field, and it
raises a `TypeError` on a value that is not a real number, such as
`None` on `acquisition.label` — the call raises instead of returning a
boolean with a diagnostic. -/
theorem change_checker_raises_on_none :
    change_checker Value.none "acquisition.label" [] =
      .error "TypeError: must be real number, not NoneType" := rfl

/-- C2 amended: `change_checker` returns a boolean for every value that
is a string, a number, a boolean or NaN — but a value that is neither a
string nor a number (such as `None`) raises a `TypeError` from
`math.isnan` when the column is a free-string field, instead of
returning `False` with a diagnostic (and NaN on a free-string field
returns `True`, not `False`). -/
theorem change_checker_total_on_numbers (v : Value) (c : String) (msgs : List String)
    (hv : v ≠ Value.none) :
    ∃ b msgs2, change_checker v c msgs = .ok (b, msgs2) := by
  cases v with
  | none => exact absurd rfl hv
  | str s =>
    unfold change_checker
    split_ifs <;> first | exact ⟨_, _, rfl⟩ | simp_all [isPyStr]
  | num n =>
    unfold change_checker
    split_ifs <;> exact ⟨_, _, rfl⟩
  | bool b =>
    unfold change_checker
    split_ifs <;> exact ⟨_, _, rfl⟩
  | nan =>
    unfold change_checker
    split_ifs <;> exact ⟨_, _, rfl⟩

/-- Witness for C2 amended: the number 5 on the free-string field
`acquisition.label` yields a boolean result. -/
theorem change_checker_total_on_numbers_witness :
    ∃ b msgs2, change_checker (.num 5) "acquisition.label" [] = .ok (b, msgs2) :=
  change_checker_total_on_numbers (.num 5) "acquisition.label" [] (by decide)

/-! ### Lemmas about the diagnostic queue -/

/-- Branch analysis of `change_checker`: every run either raises (and
raises identically on any starting queue), or returns a boolean plus the
starting queue extended by the run's own appended messages — exactly one
message when the result is `False` and none when it is `True`. -/
theorem change_checker_cases (v : Value) (c : String) (msgs : List String) :
    (∃ e, change_checker v c msgs = .error e ∧ change_checker v c [] = .error e) ∨
    (∃ b m0, change_checker v c [] = .ok (b, m0) ∧
      change_checker v c msgs = .ok (b, msgs ++ m0) ∧
      (b = true → m0 = []) ∧ (b = false → ∃ m, m0 = [m])) := by
  unfold change_checker
  split_ifs <;>
    first
      | exact Or.inr ⟨true, [], rfl, by simp, fun _ => rfl, fun hh => absurd hh (by decide)⟩
      | exact Or.inr ⟨false, _, rfl, by simp, fun hh => absurd hh (by decide), fun _ => ⟨_, rfl⟩⟩
      | (rcases hmi : mathIsnan v with e | bb
         · exact Or.inl ⟨e, rfl, rfl⟩
         · cases bb with
           | true =>
             exact Or.inr ⟨true, [], rfl, by simp, fun _ => rfl, fun hh => absurd hh (by decide)⟩
           | false =>
             exact Or.inr ⟨false, _, rfl, by simp, fun hh => absurd hh (by decide), fun _ => ⟨_, rfl⟩⟩)

/-- The queue is append-only across the whole checking loop: running the
checks on any starting queue gives the result of running them on the
empty queue, with the starting queue prepended. -/
theorem runChecks_ext (idxs : List (Nat × Nat)) (df : DF) :
    ∀ msgs, runChecks idxs df msgs =
      (runChecks idxs df []).map (fun r => (r.1, msgs ++ r.2)) := by
  induction idxs with
  | nil => intro msgs; simp [runChecks, Except.map]
  | cons p rest ih =>
    intro msgs
    simp only [runChecks]
    rcases change_checker_cases (df.cell p.1 p.2) (colName df p.2) msgs with
      ⟨e, he, he0⟩ | ⟨b, m0, h0, hm, _, _⟩
    · simp [he, he0, Except.map]
    · simp only [hm, h0]
      rw [ih (msgs ++ m0), ih m0]
      cases hr : runChecks rest df [] with
      | error e => simp [Except.map]
      | ok r => obtain ⟨valid, extra⟩ := r; simp [Except.map, List.append_assoc]

/-- Core pairing invariant of the validation pass started on an empty
queue: when every check passed, the queue is still empty and there is
nothing to report; and in every case the reporting loop, fed the queue
the checks produced, drains it completely and prints exactly one block
per invalid cell, in order, each carrying that cell's own diagnostic. -/
theorem runChecks_main (df : DF) (idxs : List (Nat × Nat)) :
    ∀ (valid : List Bool) (extra : List String),
      runChecks idxs df [] = .ok (valid, extra) →
      ((valid.all (fun b => b) = true → extra = [] ∧ expectedReports df idxs = []) ∧
        buildReports (idxs.zip valid) df extra = .ok ([], expectedReports df idxs)) := by
  induction idxs with
  | nil =>
    intro valid extra h
    simp only [runChecks, Except.ok.injEq, Prod.mk.injEq] at h
    obtain ⟨rfl, rfl⟩ := h
    simp [expectedReports, buildReports]
  | cons p rest ih =>
    intro valid extra h
    simp only [runChecks] at h
    rcases change_checker_cases (df.cell p.1 p.2) (colName df p.2) [] with
      ⟨e, he, he0⟩ | ⟨b, m0, h0, _, ht, hf⟩
    · simp only [he0] at h
      exact Except.noConfusion h
    · simp only [h0] at h
      have hc1 : checkOne df p = .ok (b, m0) := h0
      rw [runChecks_ext rest df m0] at h
      rcases hr : runChecks rest df [] with e | r2
      · simp only [hr, Except.map] at h
        exact Except.noConfusion h
      · obtain ⟨vrest, extra2⟩ := r2
        simp only [hr, Except.map, Except.ok.injEq, Prod.mk.injEq] at h
        obtain ⟨rfl, rfl⟩ := h
        obtain ⟨ih1, ih2⟩ := ih vrest extra2 hr
        cases b with
        | true =>
          rw [ht rfl]
          rw [ht rfl] at hc1
          have hexp : expectedReports df (p :: rest) = expectedReports df rest := by
            simp [expectedReports, List.filterMap_cons, hc1]
          constructor
          · intro hall
            simp only [List.all_cons, Bool.true_and] at hall
            obtain ⟨he2, hr2⟩ := ih1 hall
            exact ⟨by simp [he2], by rw [hexp, hr2]⟩
          · simp only [List.zip_cons_cons, buildReports, if_pos, List.nil_append]
            rw [hexp]
            exact ih2
        | false =>
          obtain ⟨m, rfl⟩ := hf rfl
          have hexp : expectedReports df (p :: rest) =
              ⟨p.1 + 1, p.2 + 1, df.cell p.1 p.2, m⟩ :: expectedReports df rest := by
            simp [expectedReports, List.filterMap_cons, hc1]
          constructor
          · intro hall
            simp at hall
          · simp only [List.zip_cons_cons, buildReports, List.nil_append]
            rw [if_neg (by decide)]
            have ih2w : buildReports (List.zipWith Prod.mk rest vrest) df extra2 =
                Except.ok ([], expectedReports df rest) := ih2
            simp only [List.singleton_append, ih2w, hexp]

/-- If some diffed cell fails its check, the collected boolean list does
not satisfy `all`. -/
theorem runChecks_false_mem (df : DF) (idxs : List (Nat × Nat)) :
    ∀ (valid : List Bool) (extra : List String) (p : Nat × Nat) (ms : List String),
      runChecks idxs df [] = .ok (valid, extra) → p ∈ idxs →
      checkOne df p = .ok (false, ms) → valid.all (fun b => b) = false := by
  induction idxs with
  | nil =>
    intro valid extra p ms _ hp _
    cases hp
  | cons q rest ih =>
    intro valid extra p ms h hp hf
    simp only [runChecks] at h
    rcases hc : change_checker (df.cell q.1 q.2) (colName df q.2) [] with e | r
    · simp only [hc] at h
      exact Except.noConfusion h
    · obtain ⟨b, m0⟩ := r
      simp only [hc] at h
      rw [runChecks_ext rest df m0] at h
      rcases hr : runChecks rest df [] with e | r2
      · simp only [hr, Except.map] at h
        exact Except.noConfusion h
      · obtain ⟨vrest, extra2⟩ := r2
        simp only [hr, Except.map, Except.ok.injEq, Prod.mk.injEq] at h
        obtain ⟨rfl, rfl⟩ := h
        rcases List.mem_cons.mp hp with rfl | hmem
        · have h2 : (Except.ok (b, m0) : Except String (Bool × List String)) =
              .ok (false, ms) := hc.symm.trans hf
          simp only [Except.ok.injEq, Prod.mk.injEq] at h2
          obtain ⟨rfl, -⟩ := h2
          simp
        · have := ih vrest extra2 p ms hr hmem hf
          simp [List.all_cons, this]

/-- Pairing of the printed blocks with the invalid cells, shared by the
claims about the validator and the apply gate. -/
theorem validate_pairing_aux (idxs : List (Nat × Nat)) (df : DF)
    (res : Bool) (msgsAfter : List String) (reps : List Report)
    (h : validate_on_unequal_cells idxs df [] = .ok (res, msgsAfter, reps)) :
    reps = expectedReports df idxs ∧ msgsAfter = [] := by
  unfold validate_on_unequal_cells at h
  rcases hr : runChecks idxs df [] with e | r
  · simp only [hr] at h
    exact Except.noConfusion h
  · obtain ⟨valid, extra⟩ := r
    simp only [hr] at h
    obtain ⟨hall, hbuild⟩ := runChecks_main df idxs valid extra hr
    by_cases hv : valid.all (fun b => b) = true
    · rw [if_pos hv] at h
      simp only [Except.ok.injEq, Prod.mk.injEq] at h
      obtain ⟨-, h2, h3⟩ := h
      obtain ⟨he, hexp⟩ := hall hv
      exact ⟨h3 ▸ hexp.symm, h2 ▸ he⟩
    · rw [if_neg hv] at h
      simp only [hbuild, Except.ok.injEq, Prod.mk.injEq] at h
      obtain ⟨-, h2, h3⟩ := h
      exact ⟨h3.symm, h2.symm⟩

/-- C6: with the run starting on an empty diagnostic queue (as every run
of the script does), the validator's printed blocks are exactly one
block per invalid cell, in coordinate order, each carrying the very
diagnostic that cell's own `change_checker` call appended — `True`
results append nothing, `False` results append exactly one message, and
the reporting loop pops them from the front in the same order, leaving
the queue empty. -/
theorem diagnostic_fifo_pairing (idxs : List (Nat × Nat)) (df : DF)
    (res : Bool) (msgsAfter : List String) (reps : List Report)
    (h : validate_on_unequal_cells idxs df [] = .ok (res, msgsAfter, reps)) :
    reps = expectedReports df idxs ∧ msgsAfter = [] :=
  validate_pairing_aux idxs df res msgsAfter reps h

/-- Witness for C6: one invalid cell (a bad modality) yields exactly one
printed block carrying that cell's diagnostic, and an empty queue. -/
theorem diagnostic_fifo_pairing_witness :
    [(⟨1, 1, .str "xyz", dropDownMsg⟩ : Report)] =
      expectedReports ⟨["modality"], [[.str "xyz"]]⟩ [(0, 0)] ∧
    ([] : List String) = [] :=
  diagnostic_fifo_pairing [(0, 0)] ⟨["modality"], [[.str "xyz"]]⟩ false []
    [⟨1, 1, .str "xyz", dropDownMsg⟩] rfl

/-- A validation pass over a coordinate list containing a failing cell
returns the verdict `False`. -/
theorem validate_false_of_mem (idxs : List (Nat × Nat)) (df : DF)
    (res : Bool) (msgsAfter : List String) (reps : List Report)
    (p : Nat × Nat) (ms : List String)
    (h : validate_on_unequal_cells idxs df [] = .ok (res, msgsAfter, reps))
    (hp : p ∈ idxs) (hf : checkOne df p = .ok (false, ms)) :
    res = false := by
  unfold validate_on_unequal_cells at h
  rcases hr : runChecks idxs df [] with e | r
  · simp only [hr] at h
    exact Except.noConfusion h
  · obtain ⟨valid, extra⟩ := r
    simp only [hr] at h
    have hall : valid.all (fun b => b) = false :=
      runChecks_false_mem df idxs valid extra p ms hr hp hf
    rw [if_neg (by simp [hall])] at h
    rcases hb : buildReports (idxs.zip valid) df extra with e | r2
    · simp only [hb] at h
      exact Except.noConfusion h
    · obtain ⟨msgs2, reps2⟩ := r2
      simp only [hb, Except.ok.injEq, Prod.mk.injEq] at h
      exact h.1.symm

/-- C5: if any diffed cell fails validation, the run makes zero remote
update calls — the apply phase is skipped entirely, cells that
individually validated included — and the printed diagnostics list every
invalid cell's 1-indexed location, offending value and reason (the blocks
are exactly `expectedReports`, one block per invalid cell, in order). -/
theorem apply_gate_all_or_nothing (df_original df_modified : DF) (client : Client)
    (idxs : List (Nat × Nat)) (res : Bool) (msgsAfter : List String)
    (reps : List Report) (p : Nat × Nat) (ms : List String)
    (hdiff : get_unequal_cells df_original df_modified = .ok idxs)
    (hval : validate_on_unequal_cells idxs df_modified [] = .ok (res, msgsAfter, reps))
    (hp : p ∈ idxs) (hf : checkOne df_modified p = .ok (false, ms)) :
    pipeline df_original df_modified client = .ok (false, reps, []) ∧
    reps = expectedReports df_modified idxs := by
  have hres : res = false :=
    validate_false_of_mem idxs df_modified res msgsAfter reps p ms hval hp hf
  subst hres
  constructor
  · unfold pipeline
    simp only [hdiff, hval]
    rw [if_neg (by simp)]
  · exact (validate_pairing_aux idxs df_modified false msgsAfter reps hval).1

/-- Witness for C5: the end-to-end rejection scenario — editing the
`acquisition.id` cell itself yields verdict `False`, one printed block,
and zero update calls. -/
theorem apply_gate_all_or_nothing_witness :
    pipeline ⟨["acquisition.id"], [[.num 123]]⟩ ⟨["acquisition.id"], [[.num 456]]⟩ ⟨[]⟩ =
      .ok (false, [⟨1, 1, .num 456, cannotEditIdMsg⟩], []) ∧
    [(⟨1, 1, .num 456, cannotEditIdMsg⟩ : Report)] =
      expectedReports ⟨["acquisition.id"], [[.num 456]]⟩ [(0, 0)] :=
  apply_gate_all_or_nothing ⟨["acquisition.id"], [[.num 123]]⟩
    ⟨["acquisition.id"], [[.num 456]]⟩ ⟨[]⟩ [(0, 0)] false []
    [⟨1, 1, .num 456, cannotEditIdMsg⟩] (0, 0) [cannotEditIdMsg] rfl rfl (by decide) rfl

/-! ### Sub-object addressing in the apply phase -/

/-- C4 counterexample: an acquisition with TWO files of the matching type
`nifti` is not an addressing error — the update is silently applied to
the first matching file (`fid = 0`), refuting the exactly-one requirement
and the no-silent-application requirement. -/
theorem upload_first_match_not_fatal :
    upload_to_flywheel
      ⟨["acquisition.id", "type", "info_note"], [[.str "abc", .str "nifti", .str "v"]]⟩
      [(0, 2)]
      ⟨[("abc", ⟨[⟨0, .str "nifti"⟩, ⟨1, .str "nifti"⟩]⟩)]⟩ =
    .ok [⟨"abc", ⟨0, .str "nifti"⟩, UpKind.info,
      Nested.node "note" (Nested.leaf (.str "v"))⟩] := rfl

/-- C4 amended: in the apply phase, at least one sub-object of the
resolved entity must carry the row's type: if none matches, the cell is
a fatal `IndexError`; but if several match, there is no error — every
call issued for the cell silently targets the FIRST matching file. -/
theorem upload_addressing (df : DF) (client : Client) (p : Nat × Nat)
    (acq ft : Value) (e : Entity)
    (hacq : df.loc p.1 "acquisition.id" = .ok acq)
    (hft : df.loc p.1 "type" = .ok ft)
    (hget : client.get (pyStr acq) = .ok e) :
    (e.files.filter (fun f => pyEq f.type ft) = [] →
      upload_to_flywheel df [p] client = .error "IndexError: list index out of range") ∧
    (∀ f rest2 calls, e.files.filter (fun f => pyEq f.type ft) = f :: rest2 →
      upload_to_flywheel df [p] client = .ok calls →
      ∀ c ∈ calls, c.file = f) := by
  constructor
  · intro hnil
    simp only [upload_to_flywheel, upload_one, hacq, hft, hget, hnil, List.head?]
  · intro f rest2 calls hcons hok c hc
    simp only [upload_to_flywheel, upload_one, hacq, hft, hget, hcons,
      List.head?_cons] at hok
    rcases hsplit : splitUnderscore (colName df p.2) with _ | ⟨k, ks⟩
    · rw [hsplit] at hok
      simp only [create_nested_fw_dict] at hok
      exact Except.noConfusion hok
    · rw [hsplit] at hok
      simp only [create_nested_fw_dict] at hok
      simp only [List.append_nil, List.nil_append, Except.ok.injEq] at hok
      split_ifs at hok
      · rw [← hok] at hc
        rcases List.mem_append.mp hc with h2 | h2 <;>
          (rcases List.mem_singleton.mp h2 with rfl; rfl)
      · rw [← hok] at hc
        rcases List.mem_singleton.mp hc with rfl
        rfl
      · rw [← hok] at hc
        rcases List.mem_singleton.mp hc with rfl
        rfl
      · rw [← hok] at hc
        simp at hc

/-- Witness for C4 amended: an acquisition whose only file has type
`dicom` cannot address a `nifti` row — the cell is a fatal IndexError. -/
theorem upload_addressing_witness :
    upload_to_flywheel
      ⟨["acquisition.id", "type", "info_note"], [[.str "abc", .str "nifti", .str "v"]]⟩
      [(0, 2)]
      ⟨[("abc", ⟨[⟨0, .str "dicom"⟩]⟩)]⟩ =
    .error "IndexError: list index out of range" :=
  (upload_addressing
    ⟨["acquisition.id", "type", "info_note"], [[.str "abc", .str "nifti", .str "v"]]⟩
    ⟨[("abc", ⟨[⟨0, .str "dicom"⟩]⟩)]⟩ (0, 2) (.str "abc") (.str "nifti")
    ⟨[⟨0, .str "dicom"⟩]⟩ rfl rfl rfl).1 rfl

/-! ### The end-to-end single-edit scenario -/

/-- The original table of the single-edit scenario: one row with
acquisition id 123, type nifti, modality MR. -/
def dfModalityOrig : DF :=
  ⟨["acquisition.id", "type", "modality"], [[.num 123, .str "nifti", .str "MR"]]⟩

/-- The modified copy: only the modality cell changed to CT. -/
def dfModalityMod : DF :=
  ⟨["acquisition.id", "type", "modality"], [[.num 123, .str "nifti", .str "CT"]]⟩

/-- A remote store holding entity 123 with exactly one nifti file. -/
def clientModality : Client := ⟨[("123", ⟨[⟨0, .str "nifti"⟩]⟩)]⟩

/-- C1 counterexample: the pipeline on the single-edit modality scenario
does NOT issue exactly one update call — the run succeeds but the call
list is empty, because the folded mapping's only top-level key is
`modality`, and the applier only dispatches the keys `info` and
`classification`. -/
theorem modality_edit_not_one_call :
    ¬ ∃ r : Bool × List Report × List UpdateCall,
        pipeline dfModalityOrig dfModalityMod clientModality = .ok r ∧
        r.2.2.length = 1 := by
  rintro ⟨r, hr, hlen⟩
  have hpipe : pipeline dfModalityOrig dfModalityMod clientModality =
      .ok (true, [], []) := rfl
  rw [hpipe] at hr
  simp only [Except.ok.injEq] at hr
  rw [← hr] at hlen
  simp at hlen

/-- C1 amended: on the single-edit scenario the diff reports exactly the
modality cell, that cell validates with no diagnostic, and the apply
phase runs — resolving entity 123 and its unique nifti file — but
issues ZERO update calls, because the folded path (modality to CT) has
no `info` or `classification` top-level key to dispatch; no call is made
for any other field either. -/
theorem modality_edit_pipeline :
    get_unequal_cells dfModalityOrig dfModalityMod = .ok [(0, 2)] ∧
    validate_on_unequal_cells [(0, 2)] dfModalityMod [] = .ok (true, [], []) ∧
    pipeline dfModalityOrig dfModalityMod clientModality = .ok (true, [], []) :=
  ⟨rfl, rfl, rfl⟩
